import Mathlib

/-!
Verification of the osmnx persistence layer (src/osmnx/io.py and
src/osmnx/osm_xml.py) against its natural-language specification.

The development shallowly embeds the two serialization paths:
* the GraphML codec (`save_graphml` / `load_graphml` and the per-scope
  attribute conversion helpers in io.py), and
* the OSM-XML way reconstruction and tag aggregation
  (`_get_unique_nodes_ordered_from_way`, `_append_nodes_as_edge_attrs`,
  `_append_merged_edge_attrs` in osm_xml.py).

Attribute values are modelled by the inductive `Value` covering the fragment
exercised by the code under verification: strings, booleans, integers,
rationals standing for the Python floats that occur here (all arithmetic in
the verified statements is exact, e.g. 5.0 + 7.0), and lists. Python's
`ast.literal_eval` is modelled by `literalEval`, a strict parser for the
corresponding literal fragment (ints, True/False, and nested lists); any
text outside the fragment fails to parse, which matches the conservative
branch of the code (parse failure keeps the original string).
-/

namespace OSMnx

/-- Attribute values flowing through the codec: the modelled fragment of
Python runtime values (strings, booleans, ints, floats-as-rationals, lists). -/
inductive Value where
  | str : String → Value
  | bool : Bool → Value
  | int : Int → Value
  | float : ℚ → Value
  | list : List Value → Value
deriving Repr

mutual
/-- Decidable equality test for `Value`, by mutual structural recursion with
list equality. -/
def Value.beq : Value → Value → Bool
  | Value.str a, Value.str b => a == b
  | Value.bool a, Value.bool b => a == b
  | Value.int a, Value.int b => a == b
  | Value.float a, Value.float b => a == b
  | Value.list a, Value.list b => Value.beqList a b
  | _, _ => false

/-- Pointwise `Value.beq` on lists. -/
def Value.beqList : List Value → List Value → Bool
  | [], [] => true
  | a :: as, b :: bs => Value.beq a b && Value.beqList as bs
  | _, _ => false
end

mutual
theorem Value.beq_eq : ∀ {a b : Value}, Value.beq a b = true → a = b
  | Value.str a, Value.str b, h => by
      have : a = b := by simpa [Value.beq] using h
      rw [this]
  | Value.bool a, Value.bool b, h => by
      have : a = b := by cases a <;> cases b <;> simp_all [Value.beq]
      rw [this]
  | Value.int a, Value.int b, h => by
      have : a = b := by simpa [Value.beq] using h
      rw [this]
  | Value.float a, Value.float b, h => by
      have : a = b := by simpa [Value.beq] using h
      rw [this]
  | Value.list a, Value.list b, h => by
      have : a = b := Value.beqList_eq (by simpa [Value.beq] using h)
      rw [this]

theorem Value.beqList_eq : ∀ {a b : List Value}, Value.beqList a b = true → a = b
  | [], [], _ => rfl
  | x :: xs, y :: ys, h => by
      have h' := h
      simp only [Value.beqList, Bool.and_eq_true] at h'
      have h1 : x = y := Value.beq_eq h'.1
      have h2 : xs = ys := Value.beqList_eq h'.2
      rw [h1, h2]
end

mutual
theorem Value.beq_refl : ∀ (a : Value), Value.beq a a = true
  | Value.str _ => by simp [Value.beq]
  | Value.bool a => by cases a <;> simp [Value.beq]
  | Value.int _ => by simp [Value.beq]
  | Value.float _ => by simp [Value.beq]
  | Value.list l => by simpa [Value.beq] using Value.beqList_refl l

theorem Value.beqList_refl : ∀ (l : List Value), Value.beqList l l = true
  | [] => rfl
  | x :: xs => by
      simp only [Value.beqList, Bool.and_eq_true]
      exact ⟨Value.beq_refl x, Value.beqList_refl xs⟩
end

instance : DecidableEq Value := fun a b =>
  if h : Value.beq a b = true then isTrue (Value.beq_eq h)
  else isFalse (fun he => h (he ▸ Value.beq_refl a))

/-! ### The modelled `ast.literal_eval` fragment -/

/-- Drop leading spaces, as the strict literal parser tolerates whitespace
between tokens. -/
def skipWs (cs : List Char) : List Char := cs.dropWhile (· = ' ')

/-- Value of a (non-empty) digit run. -/
def digitsToNat (ds : List Char) : Nat :=
  ds.foldl (fun a c => a * 10 + (c.toNat - 48)) 0

/-- Parse a leading run of decimal digits. -/
def parseNatTok (cs : List Char) : Option (Nat × List Char) :=
  let ds := cs.takeWhile Char.isDigit
  if ds.isEmpty then none
  else some (digitsToNat ds, cs.dropWhile Char.isDigit)

mutual
/-- Recursive-descent parser for the modelled literal fragment of
`ast.literal_eval`: integers, `True`/`False`, and (nested) list literals.
The fuel argument bounds the nesting depth and is instantiated with the
input length, which dominates any possible nesting. -/
def parseLit : Nat → List Char → Option (Value × List Char)
  | 0, _ => none
  | Nat.succ fuel, cs =>
    match skipWs cs with
    | '[' :: rest =>
      match skipWs rest with
      | ']' :: rest2 => some (Value.list [], rest2)
      | _ =>
        match parseItems fuel rest with
        | some (vs, rest2) =>
          match skipWs rest2 with
          | ']' :: rest3 => some (Value.list vs, rest3)
          | _ => none
        | none => none
    | 'T' :: 'r' :: 'u' :: 'e' :: rest => some (Value.bool true, rest)
    | 'F' :: 'a' :: 'l' :: 's' :: 'e' :: rest => some (Value.bool false, rest)
    | '-' :: rest =>
      match parseNatTok rest with
      | some (n, r) => some (Value.int (-(n : Int)), r)
      | none => none
    | c :: rest =>
      if c.isDigit then
        match parseNatTok (c :: rest) with
        | some (n, r) => some (Value.int (n : Int), r)
        | none => none
      else none
    | [] => none

/-- Comma-separated literal items inside a list literal. -/
def parseItems : Nat → List Char → Option (List Value × List Char)
  | 0, _ => none
  | Nat.succ fuel, cs =>
    match parseLit fuel cs with
    | none => none
    | some (v, rest) =>
      match skipWs rest with
      | ',' :: rest2 =>
        match parseItems fuel rest2 with
        | some (vs, rest3) => some (v :: vs, rest3)
        | none => none
      | rest2 => some ([v], rest2)
end

/-- Strict structural parse of a whole string, modelling the call
`ast.literal_eval(value)` on the modelled literal fragment: the entire
input (up to trailing whitespace) must be one literal, otherwise the
parse fails. -/
def literalEval (s : String) : Option Value :=
  match parseLit (s.data.length + 1) s.data with
  | some (v, rest) => if (skipWs rest).isEmpty then some v else none
  | none => none

/-- Python `str.startswith`, computed on the character list. -/
def strStartsWith (s pre : String) : Bool := pre.data.isPrefixOf s.data

/-- Python `str.endswith`, computed on the character list. -/
def strEndsWith (s suf : String) : Bool := suf.data.reverse.isPrefixOf s.data.reverse

/-- The guard from io.py lines 398-400 / 433-435: the value is textually
shaped like a list literal or a set/dict literal. -/
def bracketShaped (s : String) : Bool :=
  (strStartsWith s "[" && strEndsWith s "]") || (strStartsWith s "\x7b" && strEndsWith s "\x7d")

/-- The structural-parse step applied to one stringified attribute value:
if it is bracket-shaped, attempt `ast.literal_eval` and keep the result;
on parse failure (`SyntaxError`/`ValueError` suppressed by the code) or if
the guard fails, keep the original string. Embeds io.py lines 397-402 and
432-437. -/
def structuralParse (s : String) : Value :=
  if bracketShaped s then
    match literalEval s with
    | some v => v
    | none => Value.str s
  else Value.str s

/-! ### Python stringification (`str(value)`), on the modelled fragment -/

/-- Python `str()` of an integral float: `str(12.0) = "12.0"`. Non-integral
rationals (which do not occur in the verified statements) are rendered as
`num/den`. -/
def pyFloatStr (q : ℚ) : String :=
  if q.den = 1 then toString q.num ++ ".0" else toString q.num ++ "/" ++ toString q.den

mutual
/-- Python `repr()` on the modelled fragment. Used for list members inside
`str()` of a list, exactly as Python renders them. -/
def pyRepr : Value → String
  | Value.str s => "\x27" ++ s ++ "\x27"
  | Value.bool b => cond b "True" "False"
  | Value.int n => toString n
  | Value.float q => pyFloatStr q
  | Value.list vs => "[" ++ pyReprList vs ++ "]"

/-- Comma-separated `repr()`s of list members. -/
def pyReprList : List Value → String
  | [] => ""
  | [v] => pyRepr v
  | v :: rest => pyRepr v ++ ", " ++ pyReprList rest
end

/-- Python `str()` on the modelled fragment: identity on strings, `repr`
otherwise. This is the stringification applied by `save_graphml` to every
graph/node/edge attribute value (io.py lines 156-168). -/
def pyStr : Value → String
  | Value.str s => s
  | v => pyRepr v

/-! ### The attribute type registry: coercion functions -/

/-- The failure raised by a coercion function (`ValueError`/`TypeError` at
the point of conversion). Kept abstract: the pipeline only distinguishes
conversion failures from the argument-validation failure of
`load_graphml`. -/
inductive ConvError where
  | conversion : ConvError
deriving DecidableEq, Repr

/-- A coercion function of the attribute type registry: takes the parsed
intermediate value and either returns the typed value or fails. -/
def Coercion : Type := Value → Except ConvError Value

/-- Embeds `_convert_bool_string` (io.py lines 455-483): the literal text
"True"/"False" maps to the corresponding boolean, an already-boolean value
passes through, and every other value raises. -/
def convertBoolString : Coercion := fun v =>
  match v with
  | Value.str s =>
    if s = "True" then Except.ok (Value.bool true)
    else if s = "False" then Except.ok (Value.bool false)
    else Except.error ConvError.conversion
  | Value.bool b => Except.ok (Value.bool b)
  | _ => Except.error ConvError.conversion

/-- Parse the decimal text accepted by Python `float()` on the modelled
fragment: optional surrounding spaces, optional sign, digits with an
optional fractional part. -/
def parsePyFloat (s : String) : Option ℚ :=
  let cs := ((s.data.dropWhile (· = ' ')).reverse.dropWhile (· = ' ')).reverse
  let signed : Int × List Char :=
    match cs with
    | '-' :: rest => (-1, rest)
    | '+' :: rest => (1, rest)
    | _ => (1, cs)
  let intPart := signed.2.takeWhile Char.isDigit
  let rest := signed.2.dropWhile Char.isDigit
  match rest with
  | [] =>
    if intPart.isEmpty then none
    else some ((signed.1 * (digitsToNat intPart : Int) : Int) : ℚ)
  | '.' :: frac =>
    if frac.all Char.isDigit && !(intPart.isEmpty && frac.isEmpty) then
      some ((signed.1 : ℚ) * ((digitsToNat intPart : ℚ) + (digitsToNat frac : ℚ) / ((10 : ℚ) ^ frac.length)))
    else none
  | _ => none

/-- Parse the decimal text accepted by Python `int()`: optional surrounding
spaces, optional sign, digits. -/
def parsePyInt (s : String) : Option Int :=
  let cs := ((s.data.dropWhile (· = ' ')).reverse.dropWhile (· = ' ')).reverse
  let signed : Int × List Char :=
    match cs with
    | '-' :: rest => (-1, rest)
    | '+' :: rest => (1, rest)
    | _ => (1, cs)
  if signed.2.isEmpty || !(signed.2.all Char.isDigit) then none
  else some (signed.1 * (digitsToNat signed.2 : Int))

/-- The Python builtin `float` used as a dtype: parses numeric text,
converts numbers, and fails on anything else (e.g. a list). -/
def floatCoerce : Coercion := fun v =>
  match v with
  | Value.str s =>
    match parsePyFloat s with
    | some q => Except.ok (Value.float q)
    | none => Except.error ConvError.conversion
  | Value.int n => Except.ok (Value.float (n : ℚ))
  | Value.float q => Except.ok (Value.float q)
  | Value.bool b => Except.ok (Value.float (cond b 1 0))
  | Value.list _ => Except.error ConvError.conversion

/-- The Python builtin `int` used as a dtype. -/
def intCoerce : Coercion := fun v =>
  match v with
  | Value.str s =>
    match parsePyInt s with
    | some n => Except.ok (Value.int n)
    | none => Except.error ConvError.conversion
  | Value.int n => Except.ok (Value.int n)
  | Value.float q => Except.ok (Value.int (Int.tdiv q.num (q.den : Int)))
  | Value.bool b => Except.ok (Value.int (cond b 1 0))
  | Value.list _ => Except.error ConvError.conversion

/-- The Python builtin `str` used as a dtype: total stringification. -/
def strCoerce : Coercion := fun v => Except.ok (Value.str (pyStr v))

/-- A per-scope dtype map: attribute name to coercion function. -/
def DtypeMap : Type := List (String × Coercion)

/-- Python `dict.update` on dtype maps: entries of `upd` override entries of
`base` on key collision, and new keys are appended. -/
def dictUpdate (base upd : DtypeMap) : DtypeMap :=
  base.map (fun kv =>
    match List.lookup kv.1 upd with
    | some c => (kv.1, c)
    | none => kv)
  ++ upd.filter (fun kv => (List.lookup kv.1 base).isNone)

/-- The built-in graph-level dtypes of `load_graphml` (io.py line 223). -/
def defaultGraphDtypes : DtypeMap := [("simplified", convertBoolString)]

/-- The built-in node dtypes of `load_graphml` (io.py lines 224-233). -/
def defaultNodeDtypes : DtypeMap :=
  [("elevation", floatCoerce), ("elevation_res", floatCoerce),
   ("lat", floatCoerce), ("lon", floatCoerce),
   ("osmid", intCoerce), ("street_count", intCoerce),
   ("x", floatCoerce), ("y", floatCoerce)]

/-- The built-in edge dtypes of `load_graphml` (io.py lines 234-244). -/
def defaultEdgeDtypes : DtypeMap :=
  [("bearing", floatCoerce), ("grade", floatCoerce), ("grade_abs", floatCoerce),
   ("length", floatCoerce), ("oneway", convertBoolString), ("osmid", intCoerce),
   ("reversed", convertBoolString), ("speed_kph", floatCoerce),
   ("travel_time", floatCoerce)]

/-! ### The graph data model and the deserialization pipeline -/

/-- An error escaping `load_graphml`: either the argument-validation
`ValueError` ("You must pass one and only one of filepath or graphml_str"),
or a conversion failure raised by some coercion function while converting
attribute values. -/
inductive LoadError where
  | invalidArgument : LoadError
  | conversion : LoadError
deriving DecidableEq, Repr

/-- Lift a coercion result into the pipeline: coercion functions can only
fail with conversion-type errors, never with the argument-validation
error, which is raised before any coercion runs. -/
def liftConv (r : Except ConvError Value) : Except LoadError Value :=
  match r with
  | Except.ok v => Except.ok v
  | Except.error _ => Except.error LoadError.conversion

/-- Monadic map over a list in `Except`: the first failure aborts the whole
traversal, exactly like an uncaught exception inside the conversion loops. -/
def exMapM {ε α β : Type} (f : α → Except ε β) : List α → Except ε (List β)
  | [] => Except.ok []
  | a :: rest =>
    match f a with
    | Except.error e => Except.error e
    | Except.ok b =>
      match exMapM f rest with
      | Except.error e => Except.error e
      | Except.ok bs => Except.ok (b :: bs)

/-- A typed graph edge: origin, destination, parallel-edge key, and
attribute mapping. -/
structure Edge where
  u : Nat
  v : Nat
  key : Nat
  attrs : List (String × Value)
deriving DecidableEq, Repr

/-- The attributed directed multigraph of the data model. -/
structure Graph where
  graphAttrs : List (String × Value)
  nodes : List (Nat × List (String × Value))
  edges : List Edge
deriving DecidableEq, Repr

/-- An edge of the parsed GraphML document, all attribute values still
strings. -/
structure StrEdge where
  u : Nat
  v : Nat
  key : Nat
  attrs : List (String × String)
deriving DecidableEq, Repr

/-- The GraphML document as handed over by the networkx reader: a
multigraph whose attribute values are all strings. -/
structure StrGraph where
  graphAttrs : List (String × String)
  nodes : List (Nat × List (String × String))
  edges : List StrEdge
deriving DecidableEq, Repr

/-- Conversion of one graph-level attribute value: apply the registered
coercion to the raw string if one exists (io.py lines 373-374 — note that
the graph scope performs no structural parsing). -/
def convertGraphAttrValue (dt : DtypeMap) (attr : String) (s : String) :
    Except LoadError Value :=
  match List.lookup attr dt with
  | some c => liftConv (c (Value.str s))
  | none => Except.ok (Value.str s)

/-- Embeds `_convert_graph_attr_types` (io.py lines 354-376): drop the
`node_default`/`edge_default` bookkeeping keys, then coerce registered
attributes. -/
def convertGraphAttrTypes (dt : DtypeMap) (attrs : List (String × String)) :
    Except LoadError (List (String × Value)) :=
  exMapM
    (fun kv => Except.map (fun v => (kv.1, v)) (convertGraphAttrValue dt kv.1 kv.2))
    (attrs.filter (fun kv => kv.1 ≠ "node_default" && kv.1 ≠ "edge_default"))

/-- Conversion of one node attribute value: structural parse, then apply
the registered coercion — to the parsed value as a whole, never
element-wise (io.py lines 394-405). -/
def convertNodeAttrValue (dt : DtypeMap) (attr : String) (s : String) :
    Except LoadError Value :=
  match List.lookup attr dt with
  | some c => liftConv (c (structuralParse s))
  | none => Except.ok (structuralParse s)

/-- Embeds `_convert_node_attr_types` (io.py lines 379-406). -/
def convertNodeAttrTypes (dt : DtypeMap) (attrs : List (String × String)) :
    Except LoadError (List (String × Value)) :=
  exMapM
    (fun kv => Except.map (fun v => (kv.1, v)) (convertNodeAttrValue dt kv.1 kv.2))
    attrs

/-- Conversion of one edge attribute value: structural parse, then apply
the registered coercion — element-wise when the parsed value is a list,
to the whole value otherwise (io.py lines 429-446). -/
def convertEdgeAttrValue (dt : DtypeMap) (attr : String) (s : String) :
    Except LoadError Value :=
  match List.lookup attr dt with
  | some c =>
    match structuralParse s with
    | Value.list items => liftConv (Except.map Value.list (exMapM c items))
    | v => liftConv (c v)
  | none => Except.ok (structuralParse s)

/-- Embeds `_convert_edge_attr_types` (io.py lines 409-452): first the
attribute literally named "id" is removed unconditionally from the edge
data, then every remaining value is structurally parsed and coerced. The
well-known-text geometry step operates on a geometry type outside the
modelled value universe and no verified statement involves it. -/
def convertEdgeAttrTypes (dt : DtypeMap) (attrs : List (String × String)) :
    Except LoadError (List (String × Value)) :=
  exMapM
    (fun kv => Except.map (fun v => (kv.1, v)) (convertEdgeAttrValue dt kv.1 kv.2))
    (attrs.filter (fun kv => kv.1 ≠ "id"))

/-- The conversion phase of `load_graphml` (io.py lines 267-271), applied
to the parsed document with the merged dtype maps. -/
def loadGraphmlFrom (doc : StrGraph) (gdt ndt edt : DtypeMap) :
    Except LoadError Graph :=
  match convertGraphAttrTypes gdt doc.graphAttrs with
  | Except.error e => Except.error e
  | Except.ok g =>
    match exMapM (fun p => Except.map (fun a => (p.1, a)) (convertNodeAttrTypes ndt p.2)) doc.nodes with
    | Except.error e => Except.error e
    | Except.ok ns =>
      match exMapM
          (fun e => Except.map (fun a => Edge.mk e.u e.v e.key a) (convertEdgeAttrTypes edt e.attrs))
          doc.edges with
      | Except.error e => Except.error e
      | Except.ok es => Except.ok (Graph.mk g ns es)

/-- Embeds `load_graphml` (io.py lines 174-274). The two input sources are
modelled as the GraphML documents they would parse to; exactly one must be
given, otherwise the function fails immediately with the
argument-validation error, performing no conversion work. User dtype maps
override the built-in defaults per scope. -/
def loadGraphml (filepath graphmlStr : Option StrGraph)
    (nodeDtypes edgeDtypes graphDtypes : Option DtypeMap) :
    Except LoadError Graph :=
  match filepath, graphmlStr with
  | none, none => Except.error LoadError.invalidArgument
  | some _, some _ => Except.error LoadError.invalidArgument
  | some doc, none =>
    loadGraphmlFrom doc
      (dictUpdate defaultGraphDtypes (graphDtypes.getD []))
      (dictUpdate defaultNodeDtypes (nodeDtypes.getD []))
      (dictUpdate defaultEdgeDtypes (edgeDtypes.getD []))
  | none, some doc =>
    loadGraphmlFrom doc
      (dictUpdate defaultGraphDtypes (graphDtypes.getD []))
      (dictUpdate defaultNodeDtypes (nodeDtypes.getD []))
      (dictUpdate defaultEdgeDtypes (edgeDtypes.getD []))

/-! ### The serialization path of the GraphML codec -/

/-- Stringify every value of an attribute mapping, as the three loops of
`save_graphml` do (io.py lines 156-168). -/
def stringifyAttrs (attrs : List (String × Value)) : List (String × Value) :=
  attrs.map (fun kv => (kv.1, Value.str (pyStr kv.2)))

/-- Stringification of a whole graph: graph-level, node, and edge
attribute values all become their canonical string representations. -/
def stringifyGraph (G : Graph) : Graph :=
  { graphAttrs := stringifyAttrs G.graphAttrs
  , nodes := G.nodes.map (fun p => (p.1, stringifyAttrs p.2))
  , edges := G.edges.map (fun e => { e with attrs := stringifyAttrs e.attrs }) }

/-- The graph constructed by the gephi branch of `save_graphml` (io.py
lines 147-150): `nx.MultiDiGraph((u, v, k, d) for k, (u, v, d) in
enumerate(G.edges(...)))`. Built solely from the edge tuples: every edge
receives its enumeration index as a fresh sequential key, the node set is
exactly the set of edge endpoints (so isolated nodes disappear) with no
node attributes, and there are no graph-level attributes. -/
def gephiRebuild (G : Graph) : Graph :=
  { graphAttrs := []
  , nodes := ((G.edges.map (fun e => [e.u, e.v])).flatten.dedup).map (fun n => (n, []))
  , edges := G.edges.enum.map (fun p => Edge.mk p.2.u p.2.v p.1 p.2.attrs) }

/-- The graph handed to `nx.write_graphml`: in gephi mode the internally
rebuilt graph, otherwise a copy of the caller's graph; in both cases
stringified. -/
def saveGraphmlOutput (gephi : Bool) (G : Graph) : Graph :=
  stringifyGraph (if gephi then gephiRebuild G else G)

/-- Embeds `save_graphml` (io.py lines 120-171) over an explicit object
heap, so that "never mutates the caller's graph object" is a statement
about object identity and not vacuous: the heap is a store of graph
objects and `gref` is the caller's reference into it. The function
allocates the local graph (`G.copy()` in the default branch, the rebuilt
graph in the gephi branch) as a fresh object and the in-place stringify
loops write through the local reference only. Returns the new heap and
the graph written to disk. -/
def saveGraphml (gephi : Bool) (heap : List Graph) (gref : Nat) :
    List Graph × Option Graph :=
  match heap[gref]? with
  | none => (heap, none)
  | some G0 =>
    let localG := if gephi then gephiRebuild G0 else G0
    let heap1 := heap ++ [localG]
    let heap2 := heap1.set heap.length (stringifyGraph localG)
    (heap2, heap2[heap.length]?)

/-! ### Way reconstruction (osm_xml.py) -/

/-- Deduplicate keeping the first occurrence of each element, the order in
which `G.add_nodes_from` first sees the way's nodes. -/
def firstDedupAux (seen : List Nat) : List Nat → List Nat
  | [] => []
  | n :: rest =>
    if n ∈ seen then firstDedupAux seen rest
    else n :: firstDedupAux (n :: seen) rest

/-- Deduplicate a node list keeping first occurrences. -/
def firstDedup (l : List Nat) : List Nat := firstDedupAux [] l

/-- Neighbours of `n` in the scratch way graph with edge direction
ignored. -/
def undirAdj (edges : List (Nat × Nat)) (n : Nat) : List Nat :=
  edges.filterMap (fun e => if e.1 = n then some e.2 else none)
  ++ edges.filterMap (fun e => if e.2 = n then some e.1 else none)

/-- Fuel-bounded breadth-first closure over the undirected view of the
scratch graph; returns the visited set in discovery order. -/
def weakReach (edges : List (Nat × Nat)) : Nat → List Nat → List Nat → List Nat
  | 0, _, visited => visited
  | _ + 1, [], visited => visited
  | fuel + 1, n :: frontier, visited =>
    if n ∈ visited then weakReach edges fuel frontier visited
    else weakReach edges fuel (frontier ++ undirAdj edges n) (visited ++ [n])

/-- Fuel sufficient for the closure: every node enters the frontier at most
once per incident edge plus once initially. -/
def reachFuel (nodes : List Nat) (edges : List (Nat × Nat)) : Nat :=
  (nodes.length + 2 * edges.length + 1) * 2

/-- The weakly-connected components of the scratch way graph, in node
discovery order. -/
def weakComponents (nodes : List Nat) (edges : List (Nat × Nat)) : List (List Nat) :=
  nodes.foldl
    (fun acc n =>
      if acc.any (fun c => n ∈ c) then acc
      else acc ++ [weakReach edges (reachFuel nodes edges) [n] []])
    []

/-- Modelled from the spec: `utils_graph.get_largest_component(G,
strongly=False)` is called by `_get_unique_nodes_ordered_from_way`
(osm_xml.py line 521) but the `utils_graph` module is not part of the
sources under verification. Per the spec it computes the largest
weakly-connected component (weak = ignoring edge direction for
connectivity); on ties the first-discovered component is kept, matching
`max(..., key=len)`. Returns the component's node set. -/
def largestWeakComponent (nodes : List Nat) (edges : List (Nat × Nat)) : List Nat :=
  (weakComponents nodes edges).foldl
    (fun best c => if best.length < c.length then c else best) []

/-- Kahn's algorithm with explicit fuel: repeatedly emit the first
remaining node with no incoming edge from a remaining node. Returns
`none` when no such node exists while nodes remain — the condition under
which `nx.topological_sort` raises `NetworkXUnfeasible` (a directed
cycle). The emitted order is the unique topological order whenever one is
unique, which is the case for every way shape in the verified statements. -/
def topoSortAux (edges : List (Nat × Nat)) : Nat → List Nat → Option (List Nat)
  | _, [] => some []
  | 0, _ :: _ => none
  | fuel + 1, nodes@(_ :: _) =>
    match nodes.find? (fun n => !(edges.any (fun e => e.2 = n && e.1 ∈ nodes))) with
    | none => none
    | some n =>
      match topoSortAux edges fuel (nodes.erase n) with
      | some order => some (n :: order)
      | none => none

/-- Topological sort of the scratch graph restricted to the given nodes. -/
def topoSort (nodes : List Nat) (edges : List (Nat × Nat)) : Option (List Nat) :=
  topoSortAux edges nodes.length nodes

/-- The outcome of `_get_unique_nodes_ordered_from_way`: the recovered
node order, plus the `(recovered, total)` pair logged when fewer than the
total unique node count were recovered. -/
structure WayResult where
  order : List Nat
  report : Option (Nat × Nat)
deriving DecidableEq, Repr

/-- Embeds `_get_unique_nodes_ordered_from_way` (osm_xml.py lines
489-527): build the scratch multigraph of the way's `(u, v)` edge pairs,
restrict to the largest weakly-connected component, topologically sort
it, and log how many of the total unique nodes were recovered when some
were dropped. `none` models the `NetworkXUnfeasible` exception escaping
from `nx.topological_sort`. -/
def getUniqueNodesOrderedFromWay (edges : List (Nat × Nat)) : Option WayResult :=
  let allNodes := edges.map (fun e => e.1) ++ edges.map (fun e => e.2)
  let nodes := firstDedup allNodes
  let comp := largestWeakComponent nodes edges
  let hNodes := nodes.filter (fun n => n ∈ comp)
  let hEdges := edges.filter (fun e => e.1 ∈ comp && e.2 ∈ comp)
  match topoSort hNodes hEdges with
  | none => none
  | some order =>
    some { order := order
         , report := if order.length < nodes.length then some (order.length, nodes.length) else none }

/-- Embeds the node-order part of `_append_nodes_as_edge_attrs`
(osm_xml.py lines 399-425): a single-edge way is trivially `[u, v]`;
otherwise attempt the topological recovery, and on `NetworkXUnfeasible`
fall back by peeling the first edge — prepend its origin node to the
order recovered from the remaining edges. `none` models an uncaught
exception (empty input, or a second infeasibility inside the fallback). -/
def appendNodesOrdered (edges : List (Nat × Nat)) : Option (List Nat) :=
  if edges.length = 1 then
    match edges with
    | [e] => some [e.1, e.2]
    | _ => none
  else
    match getUniqueNodesOrderedFromWay edges with
    | some r => some r.order
    | none =>
      match edges with
      | [] => none
      | e :: rest =>
        match getUniqueNodesOrderedFromWay rest with
        | some r => some (e.1 :: r.order)
        | none => none

/-! ### Tag aggregation (osm_xml.py) -/

/-- Aggregation operators over a column of per-edge values. -/
inductive AggOp where
  | sum : AggOp
  | mean : AggOp
  | first : AggOp
deriving DecidableEq, Repr

/-- Reduction of a column of scalars by an aggregation operator. -/
def aggregate : AggOp → List ℚ → ℚ
  | AggOp.sum, xs => xs.foldl (· + ·) 0
  | AggOp.mean, xs => xs.foldl (· + ·) 0 / (xs.length : ℚ)
  | AggOp.first, xs => xs.headD 0

/-- The column of values for one tag across the way's edge rows, missing
entries skipped as pandas aggregation does. -/
def colValues (rows : List (List (String × ℚ))) (tag : String) : List ℚ :=
  rows.filterMap (fun r => List.lookup tag r)

/-- Whether the tag is a column of the way's edge dataframe. -/
def hasCol (rows : List (List (String × ℚ))) (tag : String) : Bool :=
  rows.any (fun r => (List.lookup tag r).isSome)

/-- Embeds `_append_merged_edge_attrs` (osm_xml.py lines 352-396) as the
list of `(k, v)` tag pairs appended to the merged way element. With no
aggregation operators every requested tag present on the sample (first)
edge is emitted with the sample value; otherwise tags with a registered
operator are emitted with the stringified aggregate over the full column,
overriding the sample value, and the remaining tags still come from the
sample edge. -/
def appendMergedEdgeAttrs (edgeTags : List String)
    (edgeTagAggs : Option (List (String × AggOp)))
    (rows : List (List (String × ℚ))) : List (String × String) :=
  let sample := rows.headD []
  match edgeTagAggs with
  | none =>
    edgeTags.filterMap (fun t =>
      Option.map (fun v => (t, pyFloatStr v)) (List.lookup t sample))
  | some aggs =>
    edgeTags.filterMap (fun t =>
      if (List.lookup t aggs).isSome then none
      else Option.map (fun v => (t, pyFloatStr v)) (List.lookup t sample))
    ++ aggs.filterMap (fun p =>
      if hasCol rows p.1 then
        some (p.1, pyFloatStr (aggregate p.2 (colValues rows p.1)))
      else none)

/-! ## Theorems about the claims -/

/-- Claim C1 counterexample: applied to the cyclic edge set
{(1,2), (2,3), (3,1)} of one way, the recovery in
`_append_nodes_as_edge_attrs` produces the order [1, 2, 3, 1] — it starts
at node 1 and is produced via the cycle fallback, but its length is 4,
not 3, and its node ids are not unique (node 1 appears twice, as first
and last element). -/
theorem way_order_loop_counterexample :
    appendNodesOrdered [(1, 2), (2, 3), (3, 1)] = some [1, 2, 3, 1] ∧
    ¬ ([1, 2, 3, 1] : List Nat).Nodup ∧ ([1, 2, 3, 1] : List Nat).length ≠ 3 := by
  refine ⟨by decide, by decide, by decide⟩

/-- Claim C1 amended: for the cyclic edge set {(1,2), (2,3), (3,1)} of one way,
the direct topological recovery is infeasible (the
`NetworkXUnfeasible` branch), and the cycle-fallback path recovers the
order [1, 2, 3, 1]: it starts at node 1, has length 4, its first and last
nodes coincide (the way loops back on itself), and its first three nodes
are pairwise distinct. -/
theorem way_order_loop_fallback :
    getUniqueNodesOrderedFromWay [(1, 2), (2, 3), (3, 1)] = none ∧
    appendNodesOrdered [(1, 2), (2, 3), (3, 1)] = some [1, 2, 3, 1] ∧
    ([1, 2, 3, 1] : List Nat).head? = some 1 ∧
    ([1, 2, 3, 1] : List Nat).length = 4 ∧
    ([1, 2, 3, 1] : List Nat).getLast? = some 1 ∧
    (([1, 2, 3, 1] : List Nat).take 3).Nodup := by
  refine ⟨by decide, by decide, by decide, by decide, by decide, by decide⟩

/-- Claim C3 counterexample: for the disconnected edge set
{(1,2), (2,3), (10,11)} of one way, the recovery does return the order
[1, 2, 3] of the larger weakly-connected component, but the logged report
is "3 of 5" unique nodes recovered (the edges mention the five distinct
nodes 1, 2, 3, 10, 11), not "3 of 4" as claimed. -/
theorem way_order_disconnected_counterexample :
    getUniqueNodesOrderedFromWay [(1, 2), (2, 3), (10, 11)] =
      some (WayResult.mk [1, 2, 3] (some (3, 5))) ∧
    (some (3, 5) : Option (Nat × Nat)) ≠ some (3, 4) := by
  refine ⟨by decide, by decide⟩

/-- Claim C3 amended: for the disconnected edge set {(1,2), (2,3), (10,11)} of
one way, the recovered order is [1, 2, 3] (the larger weakly-connected
component) and the operation reports that 3 of 5 total unique nodes were
recovered. -/
theorem way_order_disconnected :
    getUniqueNodesOrderedFromWay [(1, 2), (2, 3), (10, 11)] =
      some (WayResult.mk [1, 2, 3] (some (3, 5))) := by decide

/-- Claim C4: `_convert_bool_string` maps the literal text "True" to boolean
true and "False" to boolean false, and raises the conversion error on
every other input text, never applying default truthiness semantics. -/
theorem convert_bool_string_strict :
    convertBoolString (Value.str "True") = Except.ok (Value.bool true) ∧
    convertBoolString (Value.str "False") = Except.ok (Value.bool false) ∧
    ∀ s : String, s ≠ "True" → s ≠ "False" →
      convertBoolString (Value.str s) = Except.error ConvError.conversion := by
  refine ⟨rfl, rfl, fun s h1 h2 => ?_⟩
  simp [convertBoolString, h1, h2]

/-- Claim C4 witness: the empty string is not a canonical boolean literal and
is rejected (in particular it does not become false by truthiness). -/
theorem convert_bool_string_strict_witness :
    convertBoolString (Value.str "") = Except.error ConvError.conversion :=
  convert_bool_string_strict.2.2 "" (by decide) (by decide)

/-- Claim C5: any string attribute value on which the structural-parse attempt
does not succeed — because the bracket-shape guard fails, or because the
strict literal parse of a bracket-shaped string fails — is silently kept
as the identical original string: the structural-parse step is total
(no error) and returns the string unchanged, not a collection. -/
theorem structural_parse_keeps_malformed :
    ∀ s : String, (bracketShaped s = true → literalEval s = none) →
      structuralParse s = Value.str s ∧
      ∀ (dt : DtypeMap) (a : String), List.lookup a dt = none →
        convertNodeAttrValue dt a s = Except.ok (Value.str s) ∧
        convertEdgeAttrValue dt a s = Except.ok (Value.str s) := by
  intro s h
  have h1 : structuralParse s = Value.str s := by
    unfold structuralParse
    cases hb : bracketShaped s with
    | false => simp [hb]
    | true => simp [hb, h hb]
  refine ⟨h1, fun dt a hl => ⟨?_, ?_⟩⟩
  · unfold convertNodeAttrValue
    rw [hl, h1]
  · unfold convertEdgeAttrValue
    rw [hl, h1]

/-- Claim C5 witness: the malformed bracket string "[1, 2" round-trips
through the structural-parse step as the identical string, and an
unregistered node attribute holding it deserializes to the identical
string. -/
theorem structural_parse_keeps_malformed_witness :
    structuralParse "[1, 2" = Value.str "[1, 2" ∧
    convertNodeAttrValue defaultNodeDtypes "custom_note" "[1, 2" =
      Except.ok (Value.str "[1, 2") := by
  have h := structural_parse_keeps_malformed "[1, 2" (fun hb => absurd hb (by decide))
  exact ⟨h.1, (h.2 defaultNodeDtypes "custom_note" rfl).1⟩

/-- Claim C7: for a way group of two edges with "length" values 5.0 and 7.0,
merging under the registered aggregation operator sum emits the way tag
"length" = "12.0" (the aggregate over all edges, overriding the sample
edge), while with no aggregation operator registered for "length" the
merged way's "length" is the first (sample) edge's value, 5.0. -/
theorem way_tag_aggregation :
    appendMergedEdgeAttrs ["length"] (some [("length", AggOp.sum)])
      [[("length", 5)], [("length", 7)]] = [("length", "12.0")] ∧
    appendMergedEdgeAttrs ["length"] none
      [[("length", 5)], [("length", 7)]] = [("length", "5.0")] := by
  constructor
  · have h : aggregate AggOp.sum
        (colValues [[("length", (5 : ℚ))], [("length", 7)]] "length") = 12 := by
      simp [aggregate, colValues, List.lookup, List.filterMap, List.foldl]
      norm_num
    simp [appendMergedEdgeAttrs, hasCol, h, pyFloatStr]
    decide
  · simp [appendMergedEdgeAttrs, pyFloatStr]
    decide

/-! ### Helper lemmas about the pipeline combinators -/

theorem liftConv_error : ∀ (r : Except ConvError Value) (e : LoadError),
    liftConv r = Except.error e → e = LoadError.conversion
  | Except.ok _, _, h => by simp [liftConv] at h
  | Except.error _, e, h => by
      simp only [liftConv] at h
      injection h with h2
      exact h2.symm

theorem exceptMap_error {ε α β : Type} (f : α → β) (r : Except ε α) (e : ε) :
    Except.map f r = Except.error e → r = Except.error e := by
  cases r with
  | ok v => intro h; cases h
  | error e2 => intro h; injection h with h2; rw [h2]

theorem exceptMap_ok {ε α β : Type} (f : α → β) (r : Except ε α) (y : β) :
    Except.map f r = Except.ok y → ∃ x, r = Except.ok x ∧ f x = y := by
  cases r with
  | ok v => intro h; injection h with h2; exact ⟨v, rfl, h2⟩
  | error e2 => intro h; cases h

theorem exMapM_error_mem {ε α β : Type} (f : α → Except ε β) :
    ∀ (l : List α) (e : ε), exMapM f l = Except.error e →
      ∃ a, a ∈ l ∧ f a = Except.error e
  | [], e, h => by simp [exMapM] at h
  | a :: rest, e, h => by
      unfold exMapM at h
      cases hfa : f a with
      | error e2 =>
        rw [hfa] at h
        injection h with h2
        exact ⟨a, List.mem_cons_self a rest, by rw [hfa, h2]⟩
      | ok b =>
        rw [hfa] at h
        cases hrest : exMapM f rest with
        | error e2 =>
          rw [hrest] at h
          injection h with h2
          obtain ⟨x, hx, hfx⟩ := exMapM_error_mem f rest e2 hrest
          exact ⟨x, List.mem_cons_of_mem a hx, by rw [hfx, h2]⟩
        | ok bs => rw [hrest] at h; cases h

theorem exMapM_ok_mem {ε α β : Type} (f : α → Except ε β) :
    ∀ (l : List α) (ys : List β), exMapM f l = Except.ok ys →
      ∀ y, y ∈ ys → ∃ a, a ∈ l ∧ f a = Except.ok y
  | [], ys, h => by
      intro y hy
      unfold exMapM at h
      injection h with h2
      rw [← h2] at hy
      cases hy
  | a :: rest, ys, h => by
      intro y hy
      unfold exMapM at h
      cases hfa : f a with
      | error e2 => rw [hfa] at h; cases h
      | ok b =>
        rw [hfa] at h
        cases hrest : exMapM f rest with
        | error e2 => rw [hrest] at h; cases h
        | ok bs =>
          rw [hrest] at h
          injection h with h2
          rw [← h2] at hy
          cases hy with
          | head => exact ⟨a, List.mem_cons_self a rest, hfa⟩
          | tail _ htail =>
            obtain ⟨x, hx, hfx⟩ := exMapM_ok_mem f rest bs hrest y htail
            exact ⟨x, List.mem_cons_of_mem a hx, hfx⟩

theorem convertGraphAttrValue_error (dt : DtypeMap) (a s : String) (e : LoadError) :
    convertGraphAttrValue dt a s = Except.error e → e = LoadError.conversion := by
  intro h
  unfold convertGraphAttrValue at h
  cases hl : List.lookup a dt with
  | none => rw [hl] at h; cases h
  | some c => rw [hl] at h; exact liftConv_error _ _ h

theorem convertNodeAttrValue_error (dt : DtypeMap) (a s : String) (e : LoadError) :
    convertNodeAttrValue dt a s = Except.error e → e = LoadError.conversion := by
  intro h
  unfold convertNodeAttrValue at h
  cases hl : List.lookup a dt with
  | none => rw [hl] at h; cases h
  | some c => rw [hl] at h; exact liftConv_error _ _ h

theorem convertEdgeAttrValue_error (dt : DtypeMap) (a s : String) (e : LoadError) :
    convertEdgeAttrValue dt a s = Except.error e → e = LoadError.conversion := by
  intro h
  unfold convertEdgeAttrValue at h
  cases hl : List.lookup a dt with
  | none => rw [hl] at h; cases h
  | some c =>
    rw [hl] at h
    cases hv : structuralParse s <;> rw [hv] at h <;> exact liftConv_error _ _ h

theorem convertGraphAttrTypes_error (dt : DtypeMap) (attrs : List (String × String))
    (e : LoadError) :
    convertGraphAttrTypes dt attrs = Except.error e → e = LoadError.conversion := by
  intro h
  obtain ⟨kv, _, hkv⟩ := exMapM_error_mem _ _ _ h
  exact convertGraphAttrValue_error dt kv.1 kv.2 e (exceptMap_error _ _ _ hkv)

theorem convertNodeAttrTypes_error (dt : DtypeMap) (attrs : List (String × String))
    (e : LoadError) :
    convertNodeAttrTypes dt attrs = Except.error e → e = LoadError.conversion := by
  intro h
  obtain ⟨kv, _, hkv⟩ := exMapM_error_mem _ _ _ h
  exact convertNodeAttrValue_error dt kv.1 kv.2 e (exceptMap_error _ _ _ hkv)

theorem convertEdgeAttrTypes_error (dt : DtypeMap) (attrs : List (String × String))
    (e : LoadError) :
    convertEdgeAttrTypes dt attrs = Except.error e → e = LoadError.conversion := by
  intro h
  obtain ⟨kv, _, hkv⟩ := exMapM_error_mem _ _ _ h
  exact convertEdgeAttrValue_error dt kv.1 kv.2 e (exceptMap_error _ _ _ hkv)

theorem loadGraphmlFrom_error (doc : StrGraph) (gdt ndt edt : DtypeMap) (e : LoadError) :
    loadGraphmlFrom doc gdt ndt edt = Except.error e → e = LoadError.conversion := by
  intro h
  unfold loadGraphmlFrom at h
  cases h1 : convertGraphAttrTypes gdt doc.graphAttrs with
  | error e1 =>
    rw [h1] at h
    injection h with h2
    rw [← h2]
    exact convertGraphAttrTypes_error _ _ _ h1
  | ok g =>
    rw [h1] at h
    cases h2 : exMapM (fun p => Except.map (fun a => (p.1, a)) (convertNodeAttrTypes ndt p.2))
        doc.nodes with
    | error e2 =>
      rw [h2] at h
      injection h with h3
      obtain ⟨p, _, hp⟩ := exMapM_error_mem _ _ _ h2
      rw [← h3]
      exact convertNodeAttrTypes_error _ _ _ (exceptMap_error _ _ _ hp)
    | ok ns =>
      rw [h2] at h
      cases h3 : exMapM
          (fun eg => Except.map (fun a => Edge.mk eg.u eg.v eg.key a)
            (convertEdgeAttrTypes edt eg.attrs)) doc.edges with
      | error e3 =>
        rw [h3] at h
        injection h with h4
        obtain ⟨eg, _, hp⟩ := exMapM_error_mem _ _ _ h3
        rw [← h4]
        exact convertEdgeAttrTypes_error _ _ _ (exceptMap_error _ _ _ hp)
      | ok es => rw [h3] at h; cases h

/-- Claim C6: `load_graphml` fails with the argument-validation
`ValueError` exactly when both of its mutually exclusive input sources
are given or neither is; no conversion work contributes to this error
(the conversion phase can only fail with conversion-type errors), so it
is raised immediately by the initial check. -/
theorem load_graphml_invalid_argument_iff :
    ∀ (fp gs : Option StrGraph) (nd ed gd : Option DtypeMap),
      loadGraphml fp gs nd ed gd = Except.error LoadError.invalidArgument ↔
        ((fp = none ∧ gs = none) ∨ (fp ≠ none ∧ gs ≠ none)) := by
  intro fp gs nd ed gd
  cases fp with
  | none =>
    cases gs with
    | none => simp [loadGraphml]
    | some doc =>
      simp only [loadGraphml]
      constructor
      · intro h
        have := loadGraphmlFrom_error _ _ _ _ _ h
        exact absurd this (by decide)
      · intro h
        rcases h with ⟨_, h2⟩ | ⟨h1, _⟩
        · cases h2
        · exact absurd rfl h1
  | some doc =>
    cases gs with
    | none =>
      simp only [loadGraphml]
      constructor
      · intro h
        have := loadGraphmlFrom_error _ _ _ _ _ h
        exact absurd this (by decide)
      · intro h
        rcases h with ⟨h1, _⟩ | ⟨_, h2⟩
        · cases h1
        · exact absurd rfl h2
    | some doc2 =>
      simp only [loadGraphml]
      constructor
      · intro _
        exact Or.inr ⟨by simp, by simp⟩
      · intro _
        trivial

/-- Claim C6 witness: passing neither source fails with the
argument-validation error. -/
theorem load_graphml_invalid_argument_iff_witness :
    loadGraphml none none none none none = Except.error LoadError.invalidArgument :=
  (load_graphml_invalid_argument_iff none none none none none).mpr (Or.inl ⟨rfl, rfl⟩)

theorem lookup_eq_none_of_keys {β : Type} (k : String) :
    ∀ (l : List (String × β)), (∀ kv, kv ∈ l → kv.1 ≠ k) → List.lookup k l = none
  | [], _ => rfl
  | (a1, a2) :: rest, h => by
      have ha : a1 ≠ k := h (a1, a2) (List.mem_cons_self _ rest)
      have hb : (k == a1) = false := beq_eq_false_iff_ne.mpr (fun he => ha he.symm)
      simp only [List.lookup, hb]
      exact lookup_eq_none_of_keys k rest (fun kv hkv => h kv (List.mem_cons_of_mem _ hkv))

theorem convertEdgeAttrTypes_keys (dt : DtypeMap) (attrs : List (String × String))
    (out : List (String × Value)) :
    convertEdgeAttrTypes dt attrs = Except.ok out → ∀ kv, kv ∈ out → kv.1 ≠ "id" := by
  intro h kv hkv
  obtain ⟨src, hsrc, hmap⟩ := exMapM_ok_mem _ _ _ h kv hkv
  obtain ⟨v, _, heq⟩ := exceptMap_ok _ _ _ hmap
  have h1 : src.1 ≠ "id" := by
    have := (List.mem_filter.mp hsrc).2
    exact of_decide_eq_true this
  rw [← heq]
  exact h1

theorem loadGraphmlFrom_drops_id (doc : StrGraph) (gdt ndt edt : DtypeMap) (G : Graph) :
    loadGraphmlFrom doc gdt ndt edt = Except.ok G →
    ∀ e, e ∈ G.edges → List.lookup "id" e.attrs = none := by
  intro h e he
  unfold loadGraphmlFrom at h
  cases h1 : convertGraphAttrTypes gdt doc.graphAttrs with
  | error e1 => rw [h1] at h; cases h
  | ok g =>
    rw [h1] at h
    cases h2 : exMapM (fun p => Except.map (fun a => (p.1, a)) (convertNodeAttrTypes ndt p.2))
        doc.nodes with
    | error e2 => rw [h2] at h; cases h
    | ok ns =>
      rw [h2] at h
      cases h3 : exMapM
          (fun eg => Except.map (fun a => Edge.mk eg.u eg.v eg.key a)
            (convertEdgeAttrTypes edt eg.attrs)) doc.edges with
      | error e3 => rw [h3] at h; cases h
      | ok es =>
        rw [h3] at h
        injection h with h4
        rw [← h4] at he
        obtain ⟨src, _, hmap⟩ := exMapM_ok_mem _ _ _ h3 e he
        obtain ⟨a, hconv, hmk⟩ := exceptMap_ok _ _ _ hmap
        have hkeys := convertEdgeAttrTypes_keys edt src.attrs a hconv
        have hattrs : e.attrs = a := by rw [← hmk]
        rw [hattrs]
        exact lookup_eq_none_of_keys "id" a hkeys

/-- Claim C10: after a successful `load_graphml`, no edge carries an
attribute named "id": `_convert_edge_attr_types` pops it unconditionally
from every edge before any conversion, whatever the source document held
there and whatever edge dtype map (including one registering "id") the
caller passed. -/
theorem load_graphml_drops_edge_id :
    ∀ (fp gs : Option StrGraph) (nd ed gd : Option DtypeMap) (G : Graph),
      loadGraphml fp gs nd ed gd = Except.ok G →
      ∀ e, e ∈ G.edges → List.lookup "id" e.attrs = none := by
  intro fp gs nd ed gd G h
  cases fp with
  | none =>
    cases gs with
    | none => cases h
    | some doc => exact loadGraphmlFrom_drops_id doc _ _ _ G h
  | some doc =>
    cases gs with
    | none => exact loadGraphmlFrom_drops_id doc _ _ _ G h
    | some _ => cases h

/-- Claim C10 witness: a document whose one edge carries a
caller-meaningful "id" attribute, loaded with an edge dtype registered
for "id", still comes back with no "id" attribute on the edge. -/
theorem load_graphml_drops_edge_id_witness :
    List.lookup "id" (Edge.mk 1 2 0 [("name", Value.str "x")]).attrs = none :=
  load_graphml_drops_edge_id
    (some (StrGraph.mk [] [] [StrEdge.mk 1 2 0 [("id", "7"), ("name", "x")]])) none
    none (some [("id", intCoerce)]) none
    (Graph.mk [] [] [Edge.mk 1 2 0 [("name", Value.str "x")]]) rfl
    (Edge.mk 1 2 0 [("name", Value.str "x")]) (List.mem_singleton.mpr rfl)

/-- Claim C2 counterexample: a node attribute "flag" with the stringified
collection value "[1, 2]" and a registered node coercion (Python `str`)
deserializes to the coercion applied to the collection as a whole — the
string "[1, 2]" — and not to the element-wise image [str 1, str 2], even
though the structural parse did produce a collection. So coercions are
not applied element-wise at every scope. -/
theorem elementwise_node_scope_counterexample :
    structuralParse "[1, 2]" = Value.list [Value.int 1, Value.int 2] ∧
    exMapM strCoerce [Value.int 1, Value.int 2] =
      Except.ok [Value.str "1", Value.str "2"] ∧
    loadGraphml (some (StrGraph.mk [] [(1, [("flag", "[1, 2]")])] [])) none
      (some [("flag", strCoerce)]) none none =
      Except.ok (Graph.mk [] [(1, [("flag", Value.str "[1, 2]")])] []) ∧
    Value.str "[1, 2]" ≠ Value.list [Value.str "1", Value.str "2"] := by
  refine ⟨by decide, rfl, rfl, by decide⟩

/-- Claim C2 amended: element-wise application of a registered coercion to
the members of a structurally parsed collection happens only at the edge
scope and only when the parsed value is a list; at the node scope the
coercion is applied to the parsed value as a whole, and at the graph
scope the coercion is applied to the raw string (the graph scope performs
no structural parsing at all). -/
theorem elementwise_only_edge_scope :
    ∀ (dt : DtypeMap) (a s : String) (c : Coercion) (items : List Value),
      List.lookup a dt = some c →
      (structuralParse s = Value.list items →
        convertEdgeAttrValue dt a s = liftConv (Except.map Value.list (exMapM c items))) ∧
      convertNodeAttrValue dt a s = liftConv (c (structuralParse s)) ∧
      convertGraphAttrValue dt a s = liftConv (c (Value.str s)) := by
  intro dt a s c items hl
  refine ⟨fun hv => ?_, ?_, ?_⟩
  · unfold convertEdgeAttrValue
    rw [hl, hv]
  · unfold convertNodeAttrValue
    rw [hl]
  · unfold convertGraphAttrValue
    rw [hl]

/-- Claim C2 amended witness: at the edge scope the registered `str`
coercion maps the parsed list [1, 2] element-wise, while at the node
scope the same registration stringifies the whole list. -/
theorem elementwise_only_edge_scope_witness :
    convertEdgeAttrValue [("flag", strCoerce)] "flag" "[1, 2]" =
      Except.ok (Value.list [Value.str "1", Value.str "2"]) ∧
    convertNodeAttrValue [("flag", strCoerce)] "flag" "[1, 2]" =
      Except.ok (Value.str "[1, 2]") := by
  have h := elementwise_only_edge_scope [("flag", strCoerce)] "flag" "[1, 2]" strCoerce
    [Value.int 1, Value.int 2] rfl
  exact ⟨(h.1 (by decide)).trans rfl, h.2.1.trans rfl⟩

/-! ### Save-side theorems -/

theorem saveGraphml_preserves (gephi : Bool) (heap : List Graph) (gref : Nat) (G : Graph)
    (h : heap[gref]? = some G) :
    (saveGraphml gephi heap gref).1[gref]? = some G ∧
    (saveGraphml gephi heap gref).2 = some (saveGraphmlOutput gephi G) := by
  have hlen : gref < heap.length := by
    by_contra hc
    rw [List.getElem?_eq_none (Nat.le_of_not_lt hc)] at h
    cases h
  have hA : ((heap ++ [if gephi then gephiRebuild G else G]).set heap.length
      (stringifyGraph (if gephi then gephiRebuild G else G)))[gref]? = some G := by
    rw [List.getElem?_set_ne (by omega)]
    rw [List.getElem?_append, if_pos hlen]
    exact h
  have hB : ((heap ++ [if gephi then gephiRebuild G else G]).set heap.length
      (stringifyGraph (if gephi then gephiRebuild G else G)))[heap.length]? =
      some (stringifyGraph (if gephi then gephiRebuild G else G)) := by
    apply List.getElem?_set_eq_of_lt
    simp
  unfold saveGraphml
  rw [h]
  exact ⟨hA, hB⟩

theorem gephiRebuild_keys (G : Graph) :
    (gephiRebuild G).edges.map Edge.key = List.range G.edges.length := by
  unfold gephiRebuild
  rw [List.map_map]
  have : (Edge.key ∘ fun p : Nat × Edge => Edge.mk p.2.u p.2.v p.1 p.2.attrs) =
      Prod.fst := by
    funext p
    rfl
  rw [this]
  exact List.enum_map_fst G.edges

theorem stringifyGraph_keys (G : Graph) :
    (stringifyGraph G).edges.map Edge.key = G.edges.map Edge.key := by
  unfold stringifyGraph
  rw [List.map_map]
  rfl

/-- Claim C8: `save_graphml` never mutates the caller's graph object in
either mode: over the explicit object heap, the caller's reference still
holds the original graph after the call, because the stringify loops
write through the freshly allocated local object (`G.copy()` in the
default branch, the rebuilt graph in the gephi branch). In gephi mode the
serialized graph's edge keys are the sequential range 0..n-1 (hence all
distinct), and applying gephi mode twice in sequence leaves the caller's
graph untouched and serializes the same graph with the same distinct
sequential keys. -/
theorem save_graphml_no_mutation :
    ∀ (heap : List Graph) (gref : Nat) (G : Graph) (gephi : Bool),
      heap[gref]? = some G →
      (saveGraphml gephi heap gref).1[gref]? = some G ∧
      (saveGraphml true heap gref).2 = some (saveGraphmlOutput true G) ∧
      (saveGraphmlOutput true G).edges.map Edge.key = List.range G.edges.length ∧
      (saveGraphml true (saveGraphml true heap gref).1 gref).1[gref]? = some G ∧
      (saveGraphml true (saveGraphml true heap gref).1 gref).2 =
        some (saveGraphmlOutput true G) := by
  intro heap gref G gephi h
  obtain ⟨h1, _⟩ := saveGraphml_preserves gephi heap gref G h
  obtain ⟨h1t, h2t⟩ := saveGraphml_preserves true heap gref G h
  obtain ⟨h1tt, h2tt⟩ := saveGraphml_preserves true _ gref G h1t
  refine ⟨h1, h2t, ?_, h1tt, h2tt⟩
  show (stringifyGraph (gephiRebuild G)).edges.map Edge.key = _
  rw [stringifyGraph_keys, gephiRebuild_keys]

/-- An example caller graph for the no-mutation statement: graph-level
attribute, an attributed node, an isolated node, and one edge. -/
def saveExampleGraph : Graph :=
  Graph.mk [("simplified", Value.bool true)]
    [(5, [("x", Value.int 3)]), (9, [])]
    [Edge.mk 5 5 0 [("length", Value.float 3)]]

/-- Claim C8 witness: on a concrete one-graph heap, the caller's slot is
unchanged by a default-mode save, and the gephi-mode output's edge keys
are the sequential range. -/
theorem save_graphml_no_mutation_witness :
    (saveGraphml false [saveExampleGraph] 0).1[0]? = some saveExampleGraph ∧
    (saveGraphmlOutput true saveExampleGraph).edges.map Edge.key = List.range 1 := by
  have h := save_graphml_no_mutation [saveExampleGraph] 0 saveExampleGraph false rfl
  exact ⟨h.1, h.2.2.1⟩

theorem gephiOutput_nodes (G : Graph) :
    (saveGraphmlOutput true G).nodes =
      ((G.edges.map (fun e => [e.u, e.v])).flatten.dedup).map
        (fun n => (n, ([] : List (String × Value)))) := by
  show (stringifyGraph (gephiRebuild G)).nodes = _
  unfold stringifyGraph gephiRebuild
  rw [List.map_map]
  rfl

/-- Claim C9: the graph serialized in gephi mode is built solely from
the input's edge tuples: it has no graph-level attributes, every node of
it has no attributes, and its nodes are exactly the endpoints of the
input's edges (so a node with no incident edge is absent); in default
mode, by contrast, the serialized graph keeps the input's graph-level
attributes (stringified) and its full node collection (attributes
stringified). -/
theorem gephi_mode_serializes_edge_data_only :
    ∀ (G : Graph),
      (saveGraphmlOutput true G).graphAttrs = [] ∧
      (∀ p, p ∈ (saveGraphmlOutput true G).nodes → p.2 = ([] : List (String × Value))) ∧
      (∀ n : Nat, (∃ a, (n, a) ∈ (saveGraphmlOutput true G).nodes) ↔
        ∃ e, e ∈ G.edges ∧ (n = e.u ∨ n = e.v)) ∧
      (saveGraphmlOutput false G).graphAttrs = stringifyAttrs G.graphAttrs ∧
      (saveGraphmlOutput false G).nodes =
        G.nodes.map (fun p => (p.1, stringifyAttrs p.2)) := by
  intro G
  refine ⟨rfl, ?_, ?_, rfl, rfl⟩
  · intro p hp
    rw [gephiOutput_nodes, List.mem_map] at hp
    obtain ⟨n, _, hn⟩ := hp
    rw [← hn]
  · intro n
    constructor
    · intro ⟨a, ha⟩
      rw [gephiOutput_nodes, List.mem_map] at ha
      obtain ⟨m, hm, hmn⟩ := ha
      have hn : m = n := congrArg Prod.fst hmn
      rw [hn] at hm
      rw [List.mem_dedup, List.mem_flatten] at hm
      obtain ⟨l, hl, hnl⟩ := hm
      rw [List.mem_map] at hl
      obtain ⟨e, he, hel⟩ := hl
      refine ⟨e, he, ?_⟩
      rw [← hel] at hnl
      rcases List.mem_cons.mp hnl with h | h
      · exact Or.inl h
      · rcases List.mem_cons.mp h with h2 | h2
        · exact Or.inr h2
        · exact absurd h2 (List.not_mem_nil n)
    · intro ⟨e, he, hor⟩
      refine ⟨[], ?_⟩
      rw [gephiOutput_nodes, List.mem_map]
      refine ⟨n, ?_, rfl⟩
      rw [List.mem_dedup, List.mem_flatten]
      refine ⟨[e.u, e.v], List.mem_map.mpr ⟨e, he, rfl⟩, ?_⟩
      rcases hor with h | h
      · rw [h]; exact List.mem_cons_self _ _
      · rw [h]; exact List.mem_cons_of_mem _ (List.mem_cons_self _ _)

/-- An example graph for the gephi-content statement: one graph-level
attribute, one attributed node incident to the only edge, and one
isolated node (id 7). -/
def gephiExampleGraph : Graph :=
  Graph.mk [("created_with", Value.str "osmnx")]
    [(1, [("x", Value.int 0)]), (7, [])]
    [Edge.mk 1 1 0 [("length", Value.float 5)]]

/-- Claim C9 witness: on the concrete example, gephi mode serializes no
graph-level attributes and drops the isolated node 7, while default mode
keeps the graph-level attribute (stringified). -/
theorem gephi_mode_serializes_edge_data_only_witness :
    (saveGraphmlOutput true gephiExampleGraph).graphAttrs = [] ∧
    ¬ (∃ a, ((7 : Nat), a) ∈ (saveGraphmlOutput true gephiExampleGraph).nodes) ∧
    (saveGraphmlOutput false gephiExampleGraph).graphAttrs =
      stringifyAttrs gephiExampleGraph.graphAttrs := by
  have h := gephi_mode_serializes_edge_data_only gephiExampleGraph
  refine ⟨h.1, fun hex => ?_, h.2.2.2.1⟩
  obtain ⟨e, he, hor⟩ := (h.2.2.1 7).mp hex
  have he2 : e = Edge.mk 1 1 0 [("length", Value.float 5)] := by
    cases he with
    | head => rfl
    | tail _ htail => cases htail
  rw [he2] at hor
  rcases hor with h7 | h7 <;> exact absurd h7 (by decide)

end OSMnx
